import Mathlib

/-!
Shallow embedding of the go-xerrors repository (src/error.go and the
caller-info source file) together with the parts of the Go standard library
its behaviour depends on: the chain-walking predicate of package errors, the
copy loop of package maps, and the struct-tag driven field emission of
encoding/json.
-/

/-- Go attribute values (the `any` payloads stored in the attrs map). -/
inductive GoAny where
  | str (s : String) : GoAny
  | int (i : Int) : GoAny
  | boolean (b : Bool) : GoAny
deriving DecidableEq

mutual
/-- A Go error interface value.  `base` models an ordinary comparable error
(such as one from errors.New) identified by its allocation; `wrapper` models
an ordinary error that implements Unwrap (such as fmt.Errorf with a w verb);
`xe` is a pointer to the xerr struct of this repository.  All three are
pointer types in Go, hence comparable; structural equality here models
identity, with distinct allocations given distinct ids. -/
inductive GoError where
  | base (id : Nat) : GoError
  | wrapper (id : Nat) (inner : GoError) : GoError
  | xe (e : Xerr) : GoError

/-- The xerr struct of src/error.go, fields in source order: attrs (nil map
modelled as none), code, file, line, message, wrappedErr (nil interface
modelled as none). -/
inductive Xerr where
  | mk (attrs : Option (List (String × GoAny))) (code : Int) (file : String)
      (line : Int) (message : String) (wrappedErr : Option GoError) : Xerr
end

mutual
/-- Boolean equality on error values, modelling the Go comparison of the two
interface values (proven to coincide with propositional equality below). -/
def GoError.beq : GoError → GoError → Bool
  | .base i, .base j => i == j
  | .wrapper i a, .wrapper j b => i == j && GoError.beq a b
  | .xe a, .xe b => Xerr.beq a b
  | _, _ => false

/-- Boolean equality on xerr structs, component of GoError.beq. -/
def Xerr.beq : Xerr → Xerr → Bool
  | .mk a₁ c₁ f₁ l₁ m₁ none, .mk a₂ c₂ f₂ l₂ m₂ none =>
      a₁ == a₂ && c₁ == c₂ && f₁ == f₂ && l₁ == l₂ && m₁ == m₂
  | .mk a₁ c₁ f₁ l₁ m₁ (some w₁), .mk a₂ c₂ f₂ l₂ m₂ (some w₂) =>
      a₁ == a₂ && c₁ == c₂ && f₁ == f₂ && l₁ == l₂ && m₁ == m₂ && GoError.beq w₁ w₂
  | _, _ => false
end

/-- Field accessor for attrs. -/
def Xerr.attrs : Xerr → Option (List (String × GoAny))
  | .mk a _ _ _ _ _ => a

/-- Field accessor for code. -/
def Xerr.code : Xerr → Int
  | .mk _ c _ _ _ _ => c

/-- Field accessor for file. -/
def Xerr.file : Xerr → String
  | .mk _ _ f _ _ _ => f

/-- Field accessor for line. -/
def Xerr.line : Xerr → Int
  | .mk _ _ _ l _ _ => l

/-- Field accessor for message. -/
def Xerr.message : Xerr → String
  | .mk _ _ _ _ m _ => m

/-- Field accessor for wrappedErr. -/
def Xerr.wrappedErr : Xerr → Option GoError
  | .mk _ _ _ _ _ w => w

/-- Structural size, used as the termination measure of the chain walk. -/
def GoError.sz : GoError → Nat
  | .base _ => 1
  | .wrapper _ inner => inner.sz + 1
  | .xe (.mk _ _ _ _ _ none) => 2
  | .xe (.mk _ _ _ _ _ (some w)) => w.sz + 2

/-- The chain-walking predicate of the Go standard library, errors.Is(err,
target), specialised to non-nil arguments (all modelled error types are
comparable pointer types).  Each step first compares err to target, then
consults a custom Is method when err implements one (only xerr does: its Is
calls errors.Is(argument, wrappedErr), see src/error.go lines 179-184), then
unwraps when err implements Unwrap (only the ordinary wrapper does; xerr has
no Unwrap method, so a false custom Is ends the walk there). -/
def errorsIs (err target : GoError) : Bool :=
  if GoError.beq err target then true
  else
    match err with
    | .base _ => false
    | .wrapper _ inner => errorsIs inner target
    | .xe (.mk _ _ _ _ _ none) => false
    | .xe (.mk _ _ _ _ _ (some w)) => errorsIs target w
termination_by err.sz + target.sz
decreasing_by
  all_goals simp [GoError.sz]
  all_goals omega

/-- Method Is of src/error.go lines 179-184: returns false when wrappedErr is
nil, and otherwise returns errors.Is(err, e.wrappedErr) where err is the
argument (the nil interface argument is modelled as none; errors.Is with a
nil first argument and a non-nil target returns false). -/
def Xerr.Is (e : Xerr) (err : Option GoError) : Bool :=
  match e.wrappedErr with
  | none => false
  | some w =>
    match err with
    | none => false
    | some a => errorsIs a w

/-- The package-global capture configuration read by the constructors,
together with the outcome runtime.Caller would report at the construction
site: some (file, line) on success, none when the lookup fails. -/
structure CaptureState where
  captureCaller : Bool
  caller : Option (String × Int)

/-- The sentinel of src/error.go line 13. -/
def unknownFilename : String := "???"

/-- getCaller of src/error.go lines 32-39: the runtime.Caller result on
success, and the sentinel file with line 0 on failure. -/
def getCaller (st : CaptureState) : String × Int :=
  match st.caller with
  | some fl => fl
  | none => (unknownFilename, 0)

/-- New of src/error.go lines 104-113.  The struct literal leaves file and
line at their zero values; they are then overwritten from getCaller exactly
when the global capture flag is set. -/
def New (st : CaptureState) (code : Int) (message : String) : Xerr :=
  let fl := if st.captureCaller then getCaller st else ("", 0)
  .mk none code fl.1 fl.2 message none

/-- Newf of src/error.go lines 116-125.  fmt.Sprintf is modelled by taking
the already formatted message as input; no claim concerns the formatting
itself. -/
def Newf (st : CaptureState) (code : Int) (formatted : String) : Xerr :=
  let fl := if st.captureCaller then getCaller st else ("", 0)
  .mk none code fl.1 fl.2 formatted none

/-- Wrap of src/error.go lines 128-138: like New but storing the given error
(possibly the nil interface, modelled as none) in wrappedErr. -/
def Wrap (st : CaptureState) (code : Int) (err : Option GoError) (message : String) : Xerr :=
  let fl := if st.captureCaller then getCaller st else ("", 0)
  .mk none code fl.1 fl.2 message err

/-- Wrapf of src/error.go lines 141-151, with fmt.Sprintf modelled as in
Newf. -/
def Wrapf (st : CaptureState) (code : Int) (err : Option GoError) (formatted : String) : Xerr :=
  let fl := if st.captureCaller then getCaller st else ("", 0)
  .mk none code fl.1 fl.2 formatted err

/-- Method Attrs of src/error.go lines 154-156: returns the live attrs map
(still nil when nothing was ever attached). -/
def Xerr.Attrs (e : Xerr) : Option (List (String × GoAny)) :=
  e.attrs

/-- Method Code of src/error.go lines 159-161. -/
def Xerr.Code (e : Xerr) : Int :=
  e.code

/-- Method Error of src/error.go lines 164-166: the message verbatim. -/
def Xerr.Error (e : Xerr) : String :=
  e.message

/-- Method File of src/error.go lines 169-171. -/
def Xerr.File (e : Xerr) : String :=
  e.file

/-- Method Line of src/error.go lines 174-176. -/
def Xerr.Line (e : Xerr) : Int :=
  e.line

/-- Insertion into a Go map, modelled on an association list with unique
keys: overwrite the entry holding the key if present, append otherwise. -/
def mapSet (m : List (String × GoAny)) (k : String) (v : GoAny) : List (String × GoAny) :=
  match m with
  | [] => [(k, v)]
  | (k₀, v₀) :: rest => if k₀ = k then (k, v) :: rest else (k₀, v₀) :: mapSet rest k v

/-- Go map indexing: the value stored at the key, if any. -/
def mapGet (m : List (String × GoAny)) (k : String) : Option GoAny :=
  match m with
  | [] => none
  | (k₀, v₀) :: rest => if k₀ = k then some v₀ else mapGet rest k

/-- Lookup through the Attrs method, none when the map is nil or the key is
absent (indexing a nil Go map yields no entry). -/
def attrsGet (e : Xerr) (k : String) : Option GoAny :=
  match e.Attrs with
  | none => none
  | some m => mapGet m k

/-- Method WithAttr of src/error.go lines 214-220: make the map when it is
still nil, then set the key. -/
def Xerr.WithAttr (e : Xerr) (key : String) (value : GoAny) : Xerr :=
  match e with
  | .mk a c f l m w =>
    let m₀ := match a with | none => [] | some m₀ => m₀
    .mk (some (mapSet m₀ key value)) c f l m w

/-- Method WithAttrs of src/error.go lines 223-229: make the map when it is
still nil, then maps.Copy every entry of the argument into it (iteration
order of a Go map is unspecified; the argument is modelled as a list in some
iteration order). -/
def Xerr.WithAttrs (e : Xerr) (attrs : List (String × GoAny)) : Xerr :=
  match e with
  | .mk a c f l m w =>
    let m₀ := match a with | none => [] | some m₀ => m₀
    .mk (some (attrs.foldl (fun acc kv => mapSet acc kv.1 kv.2) m₀)) c f l m w

/-- One attribute-attachment call: either WithAttr with a single pair or
WithAttrs with a batch. -/
inductive AttrMut where
  | single (k : String) (v : GoAny) : AttrMut
  | batch (m : List (String × GoAny)) : AttrMut

/-- A sequence of attribute-attachment calls, applied left to right (each Go
call mutates the receiver and returns it, so chaining is sequential
application). -/
def applyAttrMuts (e : Xerr) : List AttrMut → Xerr
  | [] => e
  | .single k v :: rest => applyAttrMuts (e.WithAttr k v) rest
  | .batch m :: rest => applyAttrMuts (e.WithAttrs m) rest

/-- A JSON value, as far as this package ever produces one. -/
inductive Json where
  | num (n : Int) : Json
  | str (s : String) : Json
  | obj (fields : List (String × Json)) : Json

/-- Outcome of MarshalJSON: the serialized value, an error return, or a
runtime panic.  The err constructor mirrors the non-nil error return of
json.Marshal; for this program it is never produced, because by the time
json.Marshal runs the jsonXErr value holds only a nil map, an int, two
pointers and strings, all of which encode without error. -/
inductive MarshalResult where
  | ok (j : Json) : MarshalResult
  | err (msg : String) : MarshalResult
  | panic (msg : String) : MarshalResult

/-- json.Marshal applied to the populated jsonXErr struct of src/error.go
lines 86-101.  Fields are emitted in struct order: Attrs (always still the
nil map at this point, dropped by omitempty), Code, File and Line (pointers,
dropped when nil per omitempty; set under the guards of lines 195-200),
Message. -/
def marshalFields (e : Xerr) : MarshalResult :=
  let fileField : List (String × Json) :=
    if e.file != unknownFilename && e.file != "" then [(("file"), .str e.file)] else []
  let lineField : List (String × Json) :=
    if e.line ≥ 1 then [(("line"), .num e.line)] else []
  .ok (.obj ([(("code"), .num e.code)] ++ fileField ++ lineField ++ [(("message"), .str e.message)]))

/-- Method MarshalJSON of src/error.go lines 187-202.  jsonError starts with
Code and Message set and Attrs the nil map; when e.attrs is non-nil the
source runs maps.Copy(jsonError.Attrs, e.attrs), whose assignment into the
nil destination map panics as soon as the source map has an entry (and copies
nothing when the source is empty). -/
def Xerr.MarshalJSON (e : Xerr) : MarshalResult :=
  match e.attrs with
  | some m =>
    if m.isEmpty then marshalFields e
    else .panic ("assignment to entry in nil map")
  | none => marshalFields e

mutual
/-- Rendering of a JSON value to text, as json.Marshal would print it (string
escaping is omitted: no claim concerns escaped text). -/
def renderJson : Json → String
  | .num n => toString n
  | .str s => "\"" ++ s ++ "\""
  | .obj fs => "\x7b" ++ renderFields fs ++ "\x7d"

/-- Comma-separated rendering of the fields of a JSON object. -/
def renderFields : List (String × Json) → String
  | [] => ""
  | (k, v) :: rest =>
    "\"" ++ k ++ "\":" ++ renderJson v ++ (if rest.isEmpty then "" else ",") ++ renderFields rest
end

/-- Outcome of the String method: the returned text, or a propagated panic. -/
inductive StrResult where
  | ok (s : String) : StrResult
  | panic (msg : String) : StrResult

/-- Whether the String method returned text rather than panicking. -/
def StrResult.isOk : StrResult → Bool
  | .ok _ => true
  | .panic _ => false

/-- Method String of src/error.go lines 205-211: render the MarshalJSON
output; on a non-nil error return fall back to the diagnostic text; a panic
raised inside MarshalJSON propagates. -/
def Xerr.String (e : Xerr) : StrResult :=
  match e.MarshalJSON with
  | .ok j => .ok (renderJson j)
  | .err m => .ok (("failed to marshal error to JSON: ") ++ m)
  | .panic m => .panic m

/-- Whether a serialized JSON object carries the given key. -/
def jsonHasKey (j : Json) (k : String) : Bool :=
  match j with
  | .obj fs => fs.any (fun kv => kv.1 == k)
  | _ => false

/-! The caller-info source file (src/unnamed/part_000).  Go strings there are
modelled as character lists, matching the byte slicing of the stripping
loop. -/

/-- A file path or function name, as a character sequence. -/
abbrev GoPath := List Char

/-- The sentinel of the caller-info file. -/
def unknownString : GoPath := [('?'), ('?'), ('?')]

/-- The CallerInfo struct: file, line and function of the capture site. -/
structure CallerInfo where
  File : GoPath
  Line : Int
  Func : GoPath

/-- DefaultCallerInfo: the sentinel CallerInfo returned when no caller
information is available. -/
def DefaultCallerInfo : CallerInfo :=
  { File := unknownString, Line := 0, Func := unknownString }

/-- A successful runtime.Caller lookup together with the function name that
runtime.FuncForPC resolves for its program counter. -/
structure CallerResult where
  file : GoPath
  line : Int
  fn : GoPath

/-- The stripping loop of GetCallerInfo: walk the configured prefixes in
order; on the first one that strings.HasPrefix reports, cut that many leading
characters off the path and stop; leave the path alone when none matches. -/
def stripFirst : List GoPath → GoPath → GoPath
  | [], file => file
  | p :: ps, file => if p.isPrefixOf file then file.drop p.length else stripFirst ps file

/-- GetCallerInfo of the caller-info file.  The global prefix list installed
by StripCallerFilePrefixes is passed explicitly, and the runtime.Caller
outcome at the requested frame is the second argument: none models the failed
lookup (returning the default CallerInfo), some r the successful one, whose
file path goes through the stripping loop while line and function are kept. -/
def GetCallerInfo (callerFilePrefixes : List GoPath) (c : Option CallerResult) : CallerInfo :=
  match c with
  | none => DefaultCallerInfo
  | some r => { File := stripFirst callerFilePrefixes r.file, Line := r.line, Func := r.fn }

/-! Helper lemmas about the embedding. -/

mutual
theorem goErrorBeq_iff : ∀ a b : GoError, GoError.beq a b = true ↔ a = b
  | .base i, .base j => by simp [GoError.beq]
  | .wrapper i a, .wrapper j b => by
      simp [GoError.beq, goErrorBeq_iff a b]
  | .xe a, .xe b => by simp [GoError.beq, xerrBeq_iff a b]
  | .base _, .wrapper _ _ => by simp [GoError.beq]
  | .base _, .xe _ => by simp [GoError.beq]
  | .wrapper _ _, .base _ => by simp [GoError.beq]
  | .wrapper _ _, .xe _ => by simp [GoError.beq]
  | .xe _, .base _ => by simp [GoError.beq]
  | .xe _, .wrapper _ _ => by simp [GoError.beq]

theorem xerrBeq_iff : ∀ a b : Xerr, Xerr.beq a b = true ↔ a = b
  | .mk a₁ c₁ f₁ l₁ m₁ none, .mk a₂ c₂ f₂ l₂ m₂ none => by
      simp [Xerr.beq, and_assoc]
  | .mk a₁ c₁ f₁ l₁ m₁ (some w₁), .mk a₂ c₂ f₂ l₂ m₂ (some w₂) => by
      simp [Xerr.beq, goErrorBeq_iff w₁ w₂, and_assoc]
  | .mk _ _ _ _ _ none, .mk _ _ _ _ _ (some _) => by simp [Xerr.beq]
  | .mk _ _ _ _ _ (some _), .mk _ _ _ _ _ none => by simp [Xerr.beq]
end

theorem GoError.beq_refl (a : GoError) : GoError.beq a a = true :=
  (goErrorBeq_iff a a).mpr rfl

/-- One unfolding of the chain walk when the two ends are equal. -/
theorem errorsIs_self (a : GoError) : errorsIs a a = true := by
  rw [errorsIs.eq_def]
  simp [GoError.beq_refl]

theorem mapGet_mapSet (m : List (String × GoAny)) (k q : String) (v : GoAny) :
    mapGet (mapSet m k v) q = if k = q then some v else mapGet m q := by
  induction m with
  | nil => simp [mapSet, mapGet, eq_comm]
  | cons kv rest ih =>
    obtain ⟨k₀, v₀⟩ := kv
    by_cases h₀ : k₀ = k
    · subst h₀
      by_cases hq : k₀ = q <;> simp [mapSet, mapGet, hq, eq_comm]
    · by_cases hq : k₀ = q
      · subst hq
        have : ¬k = k₀ := fun h => h₀ h.symm
        simp [mapSet, mapGet, h₀, this]
      · simp [mapSet, mapGet, h₀, hq, ih]

theorem attrsGet_withAttr (e : Xerr) (k q : String) (v : GoAny) :
    attrsGet (e.WithAttr k v) q = if k = q then some v else attrsGet e q := by
  cases e with
  | mk a c f l m w =>
    cases a with
    | none => simp [Xerr.WithAttr, attrsGet, Xerr.Attrs, Xerr.attrs, mapGet_mapSet, mapGet]
    | some m₀ => simp [Xerr.WithAttr, attrsGet, Xerr.Attrs, Xerr.attrs, mapGet_mapSet]

theorem withAttr_fields (e : Xerr) (k : String) (v : GoAny) :
    (e.WithAttr k v).code = e.code ∧ (e.WithAttr k v).message = e.message ∧
    (e.WithAttr k v).file = e.file ∧ (e.WithAttr k v).line = e.line ∧
    (e.WithAttr k v).wrappedErr = e.wrappedErr := by
  cases e
  simp [Xerr.WithAttr, Xerr.code, Xerr.message, Xerr.file, Xerr.line, Xerr.wrappedErr]

theorem withAttrs_fields (e : Xerr) (m : List (String × GoAny)) :
    (e.WithAttrs m).code = e.code ∧ (e.WithAttrs m).message = e.message ∧
    (e.WithAttrs m).file = e.file ∧ (e.WithAttrs m).line = e.line ∧
    (e.WithAttrs m).wrappedErr = e.wrappedErr := by
  cases e
  simp [Xerr.WithAttrs, Xerr.code, Xerr.message, Xerr.file, Xerr.line, Xerr.wrappedErr]

theorem applyAttrMuts_fields : ∀ (ops : List AttrMut) (e : Xerr),
    (applyAttrMuts e ops).code = e.code ∧ (applyAttrMuts e ops).message = e.message ∧
    (applyAttrMuts e ops).file = e.file ∧ (applyAttrMuts e ops).line = e.line ∧
    (applyAttrMuts e ops).wrappedErr = e.wrappedErr := by
  intro ops
  induction ops with
  | nil => intro e; simp [applyAttrMuts]
  | cons op rest ih =>
    intro e
    cases op with
    | single k v =>
      have h₁ := withAttr_fields e k v
      have h₂ := ih (e.WithAttr k v)
      simp only [applyAttrMuts]
      exact ⟨h₂.1.trans h₁.1, h₂.2.1.trans h₁.2.1, h₂.2.2.1.trans h₁.2.2.1,
        h₂.2.2.2.1.trans h₁.2.2.2.1, h₂.2.2.2.2.trans h₁.2.2.2.2⟩
    | batch m =>
      have h₁ := withAttrs_fields e m
      have h₂ := ih (e.WithAttrs m)
      simp only [applyAttrMuts]
      exact ⟨h₂.1.trans h₁.1, h₂.2.1.trans h₁.2.1, h₂.2.2.1.trans h₁.2.2.1,
        h₂.2.2.2.1.trans h₁.2.2.2.1, h₂.2.2.2.2.trans h₁.2.2.2.2⟩

theorem isPrefixOf_append (p s : GoPath) (h : p.isPrefixOf s = true) :
    p ++ s.drop p.length = s := by
  have hp : p <+: s := by simpa using h
  obtain ⟨t, ht⟩ := hp
  subst ht
  simp [List.drop_left]

theorem stripFirst_of_find_none (ps : List GoPath) (file : GoPath)
    (h : List.find? (fun q => q.isPrefixOf file) ps = none) :
    stripFirst ps file = file := by
  induction ps with
  | nil => rfl
  | cons p ps ih =>
    rw [List.find?_cons] at h
    by_cases hp : p.isPrefixOf file
    · simp [hp] at h
    · simp only [hp] at h
      simpa [stripFirst, hp] using ih h

theorem stripFirst_of_find_some (ps : List GoPath) (file p : GoPath)
    (h : List.find? (fun q => q.isPrefixOf file) ps = some p) :
    stripFirst ps file = file.drop p.length ∧ p ++ file.drop p.length = file := by
  induction ps with
  | nil => simp at h
  | cons p₀ ps ih =>
    rw [List.find?_cons] at h
    by_cases hp : p₀.isPrefixOf file
    · have hpeq : p₀ = p := by simpa [hp] using h
      subst hpeq
      exact ⟨by simp [stripFirst, hp], isPrefixOf_append p₀ file hp⟩
    · simp only [hp] at h
      have := ih h
      simpa [stripFirst, hp] using this

/-! Claim theorems. -/

/-- Claim C1: the claim says MarshalJSON succeeds on an error with attributes
and emits the attrs key.  The code instead panics: with at least one attached
attribute, MarshalJSON runs maps.Copy into the still-nil jsonError.Attrs map
and Go raises assignment to entry in nil map.  This theorem evaluates the
embedding at the failing input (code 404, message not found, one attribute,
capture disabled, no cause) and, for contrast, at the same error without the
attribute, where marshalling succeeds with exactly the keys code and
message. -/
theorem marshalJSON_attr_input_panics :
    (New ⟨false, none⟩ 404 ("not found")).MarshalJSON
      = .ok (.obj [(("code"), .num 404), (("message"), .str ("not found"))]) ∧
    ((New ⟨false, none⟩ 404 ("not found")).WithAttr ("k") (.str ("v"))).MarshalJSON
      = .panic ("assignment to entry in nil map") :=
  ⟨rfl, rfl⟩

/-- Claim C2 counterexample: an error built by Wrap with a non-nil cause
marshals to an object holding exactly the keys code and message; no
wrappedError key is present, contradicting the claim. -/
theorem marshal_wrap_lacks_wrappedError_key :
    (Wrap ⟨false, none⟩ 500 (some (.base 0)) ("outer")).MarshalJSON
      = .ok (.obj [(("code"), .num 500), (("message"), .str ("outer"))]) ∧
    jsonHasKey (.obj [(("code"), .num 500), (("message"), .str ("outer"))]) ("wrappedError")
      = false := by
  refine ⟨rfl, ?_⟩
  decide

/-- Claim C2 (amended): the jsonXErr struct of src/error.go lines 86-101 has
no wrappedError field, so whenever MarshalJSON returns successfully its
output object carries no wrappedError key: the cause is never serialized,
whether or not one was set. -/
theorem marshalJSON_never_emits_wrappedError (e : Xerr) (j : Json)
    (h : e.MarshalJSON = .ok j) : jsonHasKey j ("wrappedError") = false := by
  cases e with
  | mk a c f l m w =>
    have key : ∀ j', marshalFields (.mk a c f l m w) = .ok j' →
        jsonHasKey j' ("wrappedError") = false := by
      intro j' h'
      simp only [marshalFields, MarshalResult.ok.injEq] at h'
      subst h'
      simp only [jsonHasKey, List.any_append]
      split <;> split <;> simp
    cases ha : a with
    | none =>
      rw [Xerr.MarshalJSON] at h
      simp only [Xerr.attrs, ha] at h
      exact key j h
    | some m₀ =>
      rw [Xerr.MarshalJSON] at h
      simp only [Xerr.attrs, ha] at h
      by_cases hm : m₀.isEmpty
      · rw [if_pos hm] at h
        exact key j h
      · rw [if_neg hm] at h
        cases h

/-- Witness for claim C2 at a concrete wrapped error. -/
theorem marshalJSON_never_emits_wrappedError_witness :
    jsonHasKey (.obj [(("code"), .num 500), (("message"), .str ("outer"))]) ("wrappedError")
      = false :=
  marshalJSON_never_emits_wrappedError (Wrap ⟨false, none⟩ 500 (some (.base 0)) ("outer"))
    (.obj [(("code"), .num 500), (("message"), .str ("outer"))]) rfl

/-- Claim C3 counterexample: let c be a plain error, t an error built by Wrap
around c, and e = Wrap(1, c, m).  e has a non-nil cause (first conjunct), the
standard chain walk rooted at that cause does not find t (second conjunct:
the chain of c is just c itself), yet e.Is(t) answers true (third conjunct),
because the source passes the arguments to errors.Is in the opposite order:
it searches for the cause inside the chain of t. -/
theorem is_claimed_direction_counterexample :
    (Wrap ⟨false, none⟩ 1 (some (.base 0)) ("m")).wrappedErr = some (.base 0) ∧
    errorsIs (.base 0) (.xe (Wrap ⟨false, none⟩ 2 (some (.base 0)) ("x"))) = false ∧
    (Wrap ⟨false, none⟩ 1 (some (.base 0)) ("m")).Is
      (some (.xe (Wrap ⟨false, none⟩ 2 (some (.base 0)) ("x")))) = true := by
  refine ⟨rfl, ?_, ?_⟩
  · rw [errorsIs.eq_def]
    simp [Wrap, GoError.beq]
  · show errorsIs (.xe (Wrap ⟨false, none⟩ 2 (some (.base 0)) ("x"))) (.base 0) = true
    rw [errorsIs.eq_def]
    simp [Wrap, GoError.beq, Xerr.beq, errorsIs_self]

/-- Claim C3 (amended): e.Is(t) is true iff e has a non-nil wrapped cause, t
is non-nil, and the standard chain-walking algorithm finds the cause within
the chain rooted at t — the reverse of the claimed direction: the source
calls errors.Is(err, e.wrappedErr), so the walk starts from the target
argument and searches for the cause. -/
theorem is_equals_reversed_chain_walk (e : Xerr) (t : Option GoError) :
    e.Is t = (match e.wrappedErr, t with
      | some w, some a => errorsIs a w
      | _, _ => false) := by
  cases e with
  | mk a c f l m w => cases w <;> cases t <;> rfl

/-- Claim C4: the claim says String always returns some string.  With at
least one attached attribute the panic raised inside MarshalJSON by the
maps.Copy into the nil jsonError.Attrs map propagates through String, so
String does raise.  Evaluated at the failing input, with the attribute-free
error for contrast (there String does return text). -/
theorem string_attr_input_panics :
    ((New ⟨false, none⟩ 1 ("m")).WithAttr ("k") (.int 1)).String
      = .panic ("assignment to entry in nil map") ∧
    ((New ⟨false, none⟩ 1 ("m")).String).isOk = true :=
  ⟨rfl, rfl⟩

/-- Claim C5 counterexample: c is a plain error whose causal chain is just
itself; u = Wrap(9, c, x) is not in that chain (first conjunct: the standard
walk rooted at c never reaches u), yet Wrap(8, c, m).Is(u) answers true
(second conjunct), because Is searches for the cause c inside u, and u wraps
c.  The claim requires Is(u) to be false for every u outside the chain of
c. -/
theorem wrap_is_unrelated_target_counterexample :
    errorsIs (.base 7) (.xe (Wrap ⟨false, none⟩ 9 (some (.base 7)) ("x"))) = false ∧
    (Wrap ⟨false, none⟩ 8 (some (.base 7)) ("m")).Is
      (some (.xe (Wrap ⟨false, none⟩ 9 (some (.base 7)) ("x")))) = true := by
  constructor
  · rw [errorsIs.eq_def]
    simp [Wrap, GoError.beq]
  · show errorsIs (.xe (Wrap ⟨false, none⟩ 9 (some (.base 7)) ("x"))) (.base 7) = true
    rw [errorsIs.eq_def]
    simp [Wrap, GoError.beq, Xerr.beq, errorsIs_self]

/-- Claim C5 (amended): for every code, message and non-nil cause c,
Wrap(code, c, message).Is(c) is true; and Is(u) is false for every u in whose
causal chain the standard walk does not find c (rather than for every u
outside the chain of c, which the counterexample refutes). -/
theorem wrap_is_cause_true_and_reverse_unrelated_false (st : CaptureState) (code : Int)
    (c u : GoError) (msg : String) (h : errorsIs u c = false) :
    (Wrap st code (some c) msg).Is (some c) = true ∧
    (Wrap st code (some c) msg).Is (some u) = false := by
  constructor
  · show errorsIs c c = true
    exact errorsIs_self c
  · show errorsIs u c = false
    exact h

/-- Witness for claim C5 at concrete errors: cause and an unrelated plain
error. -/
theorem wrap_is_cause_true_and_reverse_unrelated_false_witness :
    (Wrap ⟨false, none⟩ 1 (some (.base 0)) ("m")).Is (some (.base 0)) = true ∧
    (Wrap ⟨false, none⟩ 1 (some (.base 0)) ("m")).Is (some (.base 1)) = false :=
  wrap_is_cause_true_and_reverse_unrelated_false ⟨false, none⟩ 1 (.base 0) (.base 1) ("m")
    (by rw [errorsIs.eq_def]; simp [GoError.beq])

/-- Claim C6: after WithAttr(k1,v1).WithAttr(k2,v2) with distinct keys, the
Attrs map holds v1 at k1 and v2 at k2; re-attaching k1 with v3 overwrites so
the lookup yields v3; and the map, absent before the first attachment, is
created by it holding exactly that first pair. -/
theorem withAttr_pair_and_overwrite (e : Xerr) (k₁ k₂ : String) (v₁ v₂ v₃ : GoAny)
    (hne : k₁ ≠ k₂) :
    attrsGet ((e.WithAttr k₁ v₁).WithAttr k₂ v₂) k₁ = some v₁ ∧
    attrsGet ((e.WithAttr k₁ v₁).WithAttr k₂ v₂) k₂ = some v₂ ∧
    attrsGet (((e.WithAttr k₁ v₁).WithAttr k₂ v₂).WithAttr k₁ v₃) k₁ = some v₃ ∧
    (e.attrs = none → (e.WithAttr k₁ v₁).attrs = some [(k₁, v₁)]) := by
  have hne' : ¬k₂ = k₁ := fun hh => hne hh.symm
  refine ⟨?_, ?_, ?_, ?_⟩
  · rw [attrsGet_withAttr, if_neg hne', attrsGet_withAttr]
    simp
  · rw [attrsGet_withAttr]
    simp
  · rw [attrsGet_withAttr]
    simp
  · intro h
    cases e with
    | mk a c f l m w =>
      simp only [Xerr.attrs] at h
      subst h
      simp [Xerr.WithAttr, Xerr.attrs, mapSet]

/-- Witness for claim C6 at a concrete error and concrete keys. -/
theorem withAttr_pair_and_overwrite_witness :
    attrsGet (((New ⟨false, none⟩ 1 ("m")).WithAttr ("a") (.int 1)).WithAttr ("b") (.int 2))
        ("a") = some (.int 1) ∧
    attrsGet (((New ⟨false, none⟩ 1 ("m")).WithAttr ("a") (.int 1)).WithAttr ("b") (.int 2))
        ("b") = some (.int 2) ∧
    attrsGet ((((New ⟨false, none⟩ 1 ("m")).WithAttr ("a") (.int 1)).WithAttr ("b")
        (.int 2)).WithAttr ("a") (.int 3)) ("a") = some (.int 3) ∧
    ((New ⟨false, none⟩ 1 ("m")).attrs = none →
      ((New ⟨false, none⟩ 1 ("m")).WithAttr ("a") (.int 1)).attrs = some [(("a"), .int 1)]) :=
  withAttr_pair_and_overwrite (New ⟨false, none⟩ 1 ("m")) ("a") ("b") (.int 1) (.int 2)
    (.int 3) (by decide)

/-- Claim C7: any sequence of WithAttr and WithAttrs calls changes only the
attribute map: Code, Error, File, Line and the wrapped cause all keep the
values they had before the sequence. -/
theorem attr_mutators_preserve_frame (e : Xerr) (ops : List AttrMut) :
    (applyAttrMuts e ops).Code = e.Code ∧ (applyAttrMuts e ops).Error = e.Error ∧
    (applyAttrMuts e ops).File = e.File ∧ (applyAttrMuts e ops).Line = e.Line ∧
    (applyAttrMuts e ops).wrappedErr = e.wrappedErr := by
  have h := applyAttrMuts_fields ops e
  simpa [Xerr.Code, Xerr.Error, Xerr.File, Xerr.Line] using h

/-- Claim C8: New(code, message) answers code from Code() and exactly message
from Error(), whatever the capture configuration; Error() is the message
field verbatim, with nothing mixed in. -/
theorem new_code_and_error_verbatim (st : CaptureState) (code : Int) (message : String) :
    (New st code message).Code = code ∧ (New st code message).Error = message :=
  ⟨rfl, rfl⟩

/-- Claim C9: on a successful caller lookup, when some configured prefix
matches the captured file path, the reported File is the path with exactly
the first matching prefix (in configured order) removed; when none matches,
the path is reported unchanged. -/
theorem getCallerInfo_strips_first_matching (callerFilePrefixes : List GoPath)
    (r : CallerResult) :
    (∀ p, List.find? (fun q => q.isPrefixOf r.file) callerFilePrefixes = some p →
      (GetCallerInfo callerFilePrefixes (some r)).File = r.file.drop p.length ∧
      p ++ (GetCallerInfo callerFilePrefixes (some r)).File = r.file) ∧
    (List.find? (fun q => q.isPrefixOf r.file) callerFilePrefixes = none →
      (GetCallerInfo callerFilePrefixes (some r)).File = r.file) := by
  have hG : (GetCallerInfo callerFilePrefixes (some r)).File
      = stripFirst callerFilePrefixes r.file := rfl
  constructor
  · intro p hp
    have h := stripFirst_of_find_some callerFilePrefixes r.file p hp
    rw [hG, h.1]
    exact ⟨rfl, h.2⟩
  · intro hn
    rw [hG]
    exact stripFirst_of_find_none callerFilePrefixes r.file hn

/-- Witness for claim C9: two configured prefixes, a path matched by the
second one. -/
theorem getCallerInfo_strips_first_matching_witness :
    (GetCallerInfo [("/go/").toList, ("/usr/").toList]
        (some ⟨("/usr/src/main.go").toList, 10, ("main.main").toList⟩)).File
      = (("/usr/src/main.go").toList).drop ((("/usr/").toList).length) ∧
    ("/usr/").toList ++ (GetCallerInfo [("/go/").toList, ("/usr/").toList]
        (some ⟨("/usr/src/main.go").toList, 10, ("main.main").toList⟩)).File
      = ("/usr/src/main.go").toList :=
  (getCallerInfo_strips_first_matching [("/go/").toList, ("/usr/").toList]
    ⟨("/usr/src/main.go").toList, 10, ("main.main").toList⟩).1 (("/usr/").toList) (by decide)

/-- Claim C10: an error built by Wrap or Wrapf with a nil cause answers false
from Is for every target, the nil target included: the nil-cause guard of
src/error.go line 180 fires before any comparison. -/
theorem wrap_nil_cause_is_always_false (st : CaptureState) (code : Int) (msg : String)
    (t : Option GoError) :
    (Wrap st code none msg).Is t = false ∧ (Wrapf st code none msg).Is t = false :=
  ⟨rfl, rfl⟩
